import Mathlib

/-!
Verification development for the `tari_utilities` secret-hiding wrapper.

This file gives a shallow embedding of `src/hidden.rs` (`Hidden<T, L>`) and
`src/password.rs` (`SafePassword`, `PasswordError`) and proves the spec's
claims about them.

Modelling conventions:
- Rust bytes (`u8`) are `Nat`; `Vec<u8>` is `List Nat`.
- The `zeroize` crate is an external dependency; its documented contract
  (overwrite the value's memory with zeros) is captured by the `Zeroize`
  class, with a concrete byte-buffer instance.
- `serde(transparent)` serialization is embedded parametrically: a
  serializer for the inner type `T` is a function `T → σ` and a
  deserializer is `σ → Option T`; the derive on `Hidden` delegates to
  them, skipping the `PhantomData` label field.
- Rust's destruction semantics (the drop glue runs exactly once when an
  instance ceases to exist, on scope exit, explicit `drop`, or unwinding)
  are embedded as a step relation `dropStep` on a cell lifecycle state.
- Heap allocation for `Box<T>` (used by `hide` and by the derived `Clone`,
  which allocates fresh storage) is embedded by an explicit `Heap` with
  addresses, to state the no-shared-backing-storage property.
-/

/-- The `Zeroize` trait from the `zeroize` crate (external dependency of the
repository): `zeroize` overwrites a value's memory with zeros. Modelled as the
resulting memory content. -/
class Zeroize (T : Type) where
  zeroize : T → T

/-- Zeroizing a byte buffer overwrites every byte with 0 (the `zeroize` crate's
behavior on `u8` slices/arrays/vector buffers). -/
def zeroizeBytes (l : List Nat) : List Nat := l.map fun _ => 0

instance : Zeroize (List Nat) := ⟨zeroizeBytes⟩

instance : Zeroize Nat := ⟨fun _ => 0⟩

/-- The marker trait `HiddenLabel` from `src/hidden.rs`, used for labeling
different hidden types. It has no methods. -/
class HiddenLabel (L : Type)

/-- The default label applied when a hidden type is defined without one
(`hidden_label!(DefaultHiddenLabel)` in `src/hidden.rs`): a unit marker type. -/
structure DefaultHiddenLabel where

instance : HiddenLabel DefaultHiddenLabel := ⟨⟩

/-- A label as produced by the `hidden_label!` macro, for a cipher-A key
(mirrors the doc examples in `src/hidden.rs`). -/
structure KeyForCipherALabel where

instance : HiddenLabel KeyForCipherALabel := ⟨⟩

/-- A second, distinct label produced by `hidden_label!`, for a cipher-B key. -/
structure KeyForCipherBLabel where

instance : HiddenLabel KeyForCipherBLabel := ⟨⟩

/-- `Hidden<T, L>` from `src/hidden.rs`: owns `inner: Box<T>` plus a
`PhantomData<L>` label that carries no runtime data (so it is not a field
here). The `Box` indirection is modelled explicitly only where allocation
matters (see `Heap` below); the cell's owned value is `inner`. -/
structure Hidden (T : Type) (L : Type) [Zeroize T] [HiddenLabel L] where
  inner : T

/-- `Hidden::hide`: create new hidden data from the underlying type
(boxes the value). -/
def Hidden.hide {T L : Type} [Zeroize T] [HiddenLabel L] (inner : T) : Hidden T L :=
  ⟨inner⟩

/-- `Hidden::reveal`: reveal the hidden data as an immutable reference.
In this pure embedding, the referent of the returned borrow. -/
def Hidden.reveal {T L : Type} [Zeroize T] [HiddenLabel L] (h : Hidden T L) : T :=
  h.inner

/-- The derived `PartialEq` on `Hidden`: field-wise comparison. The
`PhantomData<L>` comparison is constant `true`, so equality is the wrapped
value's `==` on `inner` (through the `Box`). -/
def Hidden.beqImpl {T L : Type} [Zeroize T] [HiddenLabel L] [BEq T]
    (a b : Hidden T L) : Bool :=
  a.inner == b.inner

/-- The placeholder produced by both `fmt::Debug` and `fmt::Display` for
`Hidden` in `src/hidden.rs`: the literal text with the wrapped type's name and
the label type's name interpolated (`type_name` is compile-time data, so it is
a parameter here). -/
def hiddenPlaceholder (tName lName : String) : String :=
  "Hidden<" ++ tName ++ ", " ++ lName ++ ">"

/-- `fmt::Debug for Hidden`: writes only the placeholder; the formatter
ignores the cell's value entirely. -/
def Hidden.debugFmt {T L : Type} [Zeroize T] [HiddenLabel L]
    (tName lName : String) (_h : Hidden T L) : String :=
  hiddenPlaceholder tName lName

/-- `fmt::Display for Hidden`: identical to the `Debug` implementation. -/
def Hidden.displayFmt {T L : Type} [Zeroize T] [HiddenLabel L]
    (tName lName : String) (_h : Hidden T L) : String :=
  hiddenPlaceholder tName lName

/-- `Zeroize for Hidden`: zeroizes the inner value in place. -/
def Hidden.zeroizeImpl {T L : Type} [Zeroize T] [HiddenLabel L]
    (h : Hidden T L) : Hidden T L :=
  ⟨Zeroize.zeroize h.inner⟩

/-- `Drop for Hidden`: the drop handler calls `self.zeroize()`. Its result is
the memory content of the owned value at the moment the storage is released. -/
def Hidden.dropImpl {T L : Type} [Zeroize T] [HiddenLabel L]
    (h : Hidden T L) : Hidden T L :=
  h.zeroizeImpl

/-- The ways a Rust value ceases to exist: normal scope exit, an explicit
early `drop`, or unwinding from a failure elsewhere. All three run the same
drop glue. -/
inductive DropReason : Type
  | scopeExit
  | earlyDispose
  | unwind

/-- Lifecycle state of one `Hidden` instance: either still live, or destroyed,
recording the final content of the owned value's memory at release. -/
inductive CellState (T L : Type) [Zeroize T] [HiddenLabel L] : Type
  | live (cell : Hidden T L)
  | freed (finalMem : T)

/-- Rust destruction semantics for a `Hidden` cell: the only transition out of
a live instance runs the `Drop` impl (whatever the reason for destruction),
leaving the owned memory holding `dropImpl`'s result; a destroyed instance has
no further transitions (the drop glue runs at most once per instance). -/
inductive dropStep {T L : Type} [Zeroize T] [HiddenLabel L] :
    CellState T L → DropReason → CellState T L → Prop
  | drop (cell : Hidden T L) (r : DropReason) :
      dropStep (CellState.live cell) r (CellState.freed (Hidden.dropImpl cell).inner)

/-- Serialization of `Hidden` under `#[serde(transparent)]` with
`#[serde(skip)]` on the `PhantomData` label: serializing the cell serializes
the inner value with the inner type's serializer, and nothing else. -/
def Hidden.serializeWith {T L σ : Type} [Zeroize T] [HiddenLabel L]
    (ser : T → σ) (h : Hidden T L) : σ :=
  ser h.inner

/-- Deserialization of `Hidden` under `#[serde(transparent)]`: deserialize an
inner value and wrap it; the label is phantom and takes its default. -/
def Hidden.deserializeWith {T L σ : Type} [Zeroize T] [HiddenLabel L]
    (de : σ → Option T) (s : σ) : Option (Hidden T L) :=
  (de s).map Hidden.hide

/-- Modelled from the spec: serializing "the raw value directly", the
reference against which the cell's transparent serialization is compared. -/
def directSerialize {T σ : Type} (ser : T → σ) (v : T) : σ :=
  ser v

/-- A heap of boxed values: memory contents by address, plus the next free
address. Used to embed `Box` allocation where aliasing matters. -/
structure Heap (T : Type) where
  mem : Nat → T
  next : Nat

/-- Allocate fresh storage holding `v` (`Box::new`); returns the heap and the
new box's address, which was not previously in use. -/
def Heap.alloc {T : Type} (h : Heap T) (v : T) : Heap T × Nat :=
  (⟨fun a => if a = h.next then v else h.mem a, h.next + 1⟩, h.next)

/-- Read the value stored at an address. -/
def Heap.read {T : Type} (h : Heap T) (a : Nat) : T :=
  h.mem a

/-- Overwrite the value stored at an address. -/
def Heap.write {T : Type} (h : Heap T) (a : Nat) (v : T) : Heap T :=
  ⟨fun b => if b = a then v else h.mem b, h.next⟩

/-- `Hidden::hide` at the allocation level: box the value in fresh storage;
the returned address is the cell's exclusively owned backing storage. -/
def hideAlloc {T : Type} (h : Heap T) (v : T) : Heap T × Nat :=
  h.alloc v

/-- The derived `Clone` for `Hidden` at the allocation level: `Box::clone`
allocates new storage and clones the pointee into it; the clone's backing
storage is a fresh address, never the original's. -/
def cloneAlloc {T : Type} (h : Heap T) (a : Nat) : Heap T × Nat :=
  h.alloc (h.read a)

/-- `Hidden::reveal_mut` used for in-place mutation: expose the cell's backing
storage mutably and apply an arbitrary update `f` through it. -/
def revealMutWrite {T : Type} (h : Heap T) (a : Nat) (f : T → T) : Heap T :=
  h.write a (f (h.read a))

/-- UTF-8 encoding of one character (what Rust's `String::into_bytes` yields
per `char`). -/
def charUtf8 (c : Char) : List Nat :=
  let n := c.toNat
  if n < 0x80 then [n]
  else if n < 0x800 then [0xC0 + n / 0x40, 0x80 + n % 0x40]
  else if n < 0x10000 then [0xE0 + n / 0x1000, 0x80 + n / 0x40 % 0x40, 0x80 + n % 0x40]
  else [0xF0 + n / 0x40000, 0x80 + n / 0x1000 % 0x40, 0x80 + n / 0x40 % 0x40, 0x80 + n % 0x40]

/-- The UTF-8 byte representation of a string (`String::into_bytes`). -/
def utf8Bytes (s : String) : List Nat :=
  (s.data.map charUtf8).flatten

/-- `SafePassword` from `src/password.rs`: a passphrase held as a
`Hidden<Vec<u8>>` with the default label. -/
structure SafePassword where
  passphrase : Hidden (List Nat) DefaultHiddenLabel

/-- `SafePassword::reveal`: an immutable view of the passphrase bytes. -/
def SafePassword.reveal (p : SafePassword) : List Nat :=
  p.passphrase.reveal

/-- `PasswordError` from `src/password.rs`: a unit struct carrying no data. -/
structure PasswordError where

/-- `Display for PasswordError`: the fixed message, with no payload. -/
def PasswordError.displayFmt (_e : PasswordError) : String :=
  "PasswordError"

/-- `FromStr for SafePassword`: converts the string to its UTF-8 bytes, hides
them, and returns `Ok` unconditionally; no branch produces `Err`. -/
def SafePassword.fromStr (s : String) : Except PasswordError SafePassword :=
  Except.ok ⟨Hidden.hide (utf8Bytes s)⟩

/-- `From<S: Into<String>> for SafePassword`: converts the text-like input to
a string, encodes to UTF-8 bytes, and hides them. -/
def SafePassword.fromInto (s : String) : SafePassword :=
  ⟨Hidden.hide (utf8Bytes s)⟩

/-- `Serialize for SafePassword`: serializes the revealed bytes as a sequence
of byte elements. -/
def SafePassword.serializeSeq (p : SafePassword) : List Nat :=
  p.passphrase.reveal

/-- `Deserialize for SafePassword` under `serde(transparent)`: deserializes a
byte sequence through `Hidden<Vec<u8>>` (itself transparent) and wraps it. -/
def SafePassword.deserializeSeq (l : List Nat) : SafePassword :=
  ⟨Hidden.hide l⟩

/-- Claim C1: on every path by which a `Hidden` instance ceases to exist —
scope exit, explicit early disposal, or unwinding — the destruction step
leaves the owned value's memory (here, a byte buffer) overwritten with the
all-zero pattern of the same length, and from the destroyed state no further
destruction step exists, so the wipe happens exactly once per instance. -/
theorem hidden_drop_wipes_once (v : List Nat) (r : DropReason)
    (s : CellState (List Nat) DefaultHiddenLabel)
    (hstep : dropStep (CellState.live (Hidden.hide v)) r s) :
    s = CellState.freed (List.replicate v.length 0) ∧
      ∀ r2 s2, ¬ dropStep s r2 s2 := by
  cases hstep with
  | drop cell r =>
    constructor
    · show CellState.freed (Hidden.dropImpl (Hidden.hide v)).inner = _
      simp [Hidden.dropImpl, Hidden.zeroizeImpl, Hidden.hide, Zeroize.zeroize,
        zeroizeBytes, List.map_const']
    · intro r2 s2 hstep2
      cases hstep2

/-- Witness for C1 at the concrete buffer `[1, 2, 3]` destroyed on scope
exit: the freed memory is `[0, 0, 0]` and no second wipe is possible. -/
theorem hidden_drop_wipes_once_witness :
    (CellState.freed ([0, 0, 0] : List Nat) :
        CellState (List Nat) DefaultHiddenLabel) =
        CellState.freed (List.replicate (3 : Nat) 0) ∧
      ∀ r2 s2,
        ¬ dropStep
          (CellState.freed ([0, 0, 0] : List Nat) :
            CellState (List Nat) DefaultHiddenLabel) r2 s2 :=
  hidden_drop_wipes_once [1, 2, 3] DropReason.scopeExit
    (CellState.freed [0, 0, 0])
    (dropStep.drop (Hidden.hide [1, 2, 3]) DropReason.scopeExit)

/-- Claim C2: for every value `v`, `hide(v).reveal()` has referent equal to
`v`; `reveal` returns the owned value itself (a borrow, not a copy). -/
theorem hidden_hide_reveal {T L : Type} [Zeroize T] [HiddenLabel L] (v : T) :
    (Hidden.hide v : Hidden T L).reveal = v :=
  rfl

/-- Claim C3 counterexample: the claim states the formatted output never
contains the hidden value's byte representation as a substring, but hiding
the byte vector spelling "Hidden" (`[72, 105, 100, 100, 101, 110]`) as a
`Hidden<Vec<u8>, DefaultHiddenLabel>` produces Debug output whose UTF-8 bytes
contain exactly those bytes, since the fixed placeholder itself starts with
the text "Hidden". -/
theorem hidden_fmt_contains_value_bytes :
    utf8Bytes "Hidden" <:+:
      utf8Bytes
        (Hidden.debugFmt "alloc::vec::Vec<u8>"
          "tari_utilities::hidden::DefaultHiddenLabel"
          (Hidden.hide (utf8Bytes "Hidden") :
            Hidden (List Nat) DefaultHiddenLabel)) := by
  decide

/-- Claim C3 (amended): Debug and Display formatting of `hide(v)` produce the
fixed placeholder determined only by the wrapped type name and label name,
independent of `v`; for any two values the outputs are identical. (The
value's byte representation can occur in the output only coincidentally, when
those bytes appear in the fixed placeholder itself, never as a function of
the hidden value.) -/
theorem hidden_fmt_fixed {T L : Type} [Zeroize T] [HiddenLabel L]
    (tName lName : String) (v1 v2 : T) :
    Hidden.debugFmt tName lName (Hidden.hide v1 : Hidden T L) =
        hiddenPlaceholder tName lName ∧
      Hidden.displayFmt tName lName (Hidden.hide v1 : Hidden T L) =
        hiddenPlaceholder tName lName ∧
      Hidden.debugFmt tName lName (Hidden.hide v1 : Hidden T L) =
        Hidden.debugFmt tName lName (Hidden.hide v2 : Hidden T L) ∧
      Hidden.displayFmt tName lName (Hidden.hide v1 : Hidden T L) =
        Hidden.displayFmt tName lName (Hidden.hide v2 : Hidden T L) :=
  ⟨rfl, rfl, rfl, rfl⟩

/-- Claim C4: parsing a `SafePassword` from any string succeeds, returning
`Ok` with the string's UTF-8 bytes hidden — the same cell the text-like
`From` conversion builds — with no validation of the content. -/
theorem safe_password_parse_total (s : String) :
    SafePassword.fromStr s = Except.ok (SafePassword.fromInto s) ∧
      (SafePassword.fromInto s).reveal = utf8Bytes s :=
  ⟨rfl, rfl⟩

/-- Claim C5 counterexample: the claim asserts some string input makes
`SafePassword` construction fail, but no string does — `fromStr` returns
`Ok` on every input. -/
theorem password_parse_never_fails :
    ¬ ∃ s : String, (SafePassword.fromStr s).isOk = false := by
  rintro ⟨s, h⟩
  simp [SafePassword.fromStr, Except.isOk, Except.toBool] at h

/-- Claim C5 (amended): constructing a `SafePassword` from a string never
fails — parsing returns `Ok` for every input. The parse-failure error type
exists and carries no diagnostic payload beyond its fixed message (it is a
unit type), but no input produces it. -/
theorem password_error_inert :
    (∀ s : String, ∃ p : SafePassword, SafePassword.fromStr s = Except.ok p) ∧
      (∀ e : PasswordError, e.displayFmt = "PasswordError") ∧
      ∀ e1 e2 : PasswordError, e1 = e2 :=
  ⟨fun s => ⟨SafePassword.fromInto s, rfl⟩, fun _ => rfl, fun _ _ => rfl⟩

/-- Claim C6: equality of `Hidden` cells delegates to the wrapped value's
equality: the derived comparison of `hide(v1)` and `hide(v2)` equals
`v1 == v2`, and propositionally the cells are equal exactly when the values
are. -/
theorem hidden_eq_delegates {T L : Type} [Zeroize T] [HiddenLabel L] [BEq T]
    (v1 v2 : T) :
    Hidden.beqImpl (Hidden.hide v1 : Hidden T L) (Hidden.hide v2) = (v1 == v2) ∧
      ((Hidden.hide v1 : Hidden T L) = Hidden.hide v2 ↔ v1 = v2) :=
  ⟨rfl, by simp [Hidden.hide]⟩

/-- Claim C7: for any serializer/deserializer pair for the inner type that
round-trips, serializing then deserializing a `Hidden` cell yields a cell
whose revealed value equals the original's; and the same round-trip holds
for `SafePassword` through its byte-sequence serialization. -/
theorem hidden_serde_roundtrip {T L σ : Type} [Zeroize T] [HiddenLabel L]
    (ser : T → σ) (de : σ → Option T) (hrt : ∀ t, de (ser t) = some t)
    (h : Hidden T L) (p : SafePassword) :
    (∃ h2 : Hidden T L,
        Hidden.deserializeWith de (Hidden.serializeWith ser h) = some h2 ∧
          h2.reveal = h.reveal) ∧
      (SafePassword.deserializeSeq (SafePassword.serializeSeq p)).reveal =
        p.reveal := by
  constructor
  · refine ⟨Hidden.hide h.inner, ?_, rfl⟩
    simp [Hidden.deserializeWith, Hidden.serializeWith, hrt]
  · rfl

/-- Witness for C7 with the identity serializer on `Nat`, the cell hiding
`5`, and the passphrase "pw". -/
theorem hidden_serde_roundtrip_witness :
    (∃ h2 : Hidden Nat DefaultHiddenLabel,
        (Hidden.deserializeWith some
            (Hidden.serializeWith (fun t => t)
              (Hidden.hide 5 : Hidden Nat DefaultHiddenLabel)) :
            Option (Hidden Nat DefaultHiddenLabel)) = some h2 ∧
          h2.reveal = (Hidden.hide 5 : Hidden Nat DefaultHiddenLabel).reveal) ∧
      (SafePassword.deserializeSeq
            (SafePassword.serializeSeq (SafePassword.fromInto "pw"))).reveal =
        (SafePassword.fromInto "pw").reveal :=
  hidden_serde_roundtrip (fun t => t) some (fun _ => rfl) (Hidden.hide 5)
    (SafePassword.fromInto "pw")

/-- Claim C8: serialization of a `Hidden` cell is transparent — for every
serializer of the inner type, serializing `hide(v)` produces exactly the
serialization of the raw value `v` itself. -/
theorem hidden_serialize_transparent {T L σ : Type} [Zeroize T] [HiddenLabel L]
    (ser : T → σ) (v : T) :
    Hidden.serializeWith ser (Hidden.hide v : Hidden T L) =
      directSerialize ser v :=
  rfl

/-- Claim C9: cloning a `Hidden` cell allocates independent backing storage:
after hiding a value and cloning the cell, the clone's box address differs
from the original's, and any in-place mutation applied through the clone's
`reveal_mut` leaves the original cell's revealed value unchanged. -/
theorem hidden_clone_independent {T : Type} (h0 : Heap T) (v : T) (f : T → T) :
    ((cloneAlloc (hideAlloc h0 v).1 (hideAlloc h0 v).2).2 ≠
        (hideAlloc h0 v).2) ∧
      Heap.read
          (revealMutWrite (cloneAlloc (hideAlloc h0 v).1 (hideAlloc h0 v).2).1
            (cloneAlloc (hideAlloc h0 v).1 (hideAlloc h0 v).2).2 f)
          (hideAlloc h0 v).2 = v := by
  refine ⟨by simp [cloneAlloc, hideAlloc, Heap.alloc], ?_⟩
  simp [cloneAlloc, hideAlloc, Heap.alloc, Heap.read, Heap.write, revealMutWrite]

/-- Claim C10: the serialized form of a `Hidden<T, L1>` cell deserializes
successfully at `Hidden<T, L2>` for any label `L2` (the label is phantom and
skipped in serialization), yielding a cell with the original revealed value —
so label separation is not enforced across a serialization boundary. -/
theorem hidden_deserialize_any_label {T L1 L2 σ : Type} [Zeroize T]
    [HiddenLabel L1] [HiddenLabel L2]
    (ser : T → σ) (de : σ → Option T) (hrt : ∀ t, de (ser t) = some t)
    (h : Hidden T L1) :
    ∃ h2 : Hidden T L2,
      Hidden.deserializeWith de (Hidden.serializeWith ser h) = some h2 ∧
        h2.reveal = h.reveal := by
  refine ⟨Hidden.hide h.inner, ?_, rfl⟩
  simp [Hidden.deserializeWith, Hidden.serializeWith, hrt]

/-- Witness for C10: a cipher-A-labelled cell hiding `[1, 2]` deserializes at
the cipher-B label with the same revealed bytes. -/
theorem hidden_deserialize_any_label_witness :
    ∃ h2 : Hidden (List Nat) KeyForCipherBLabel,
      (Hidden.deserializeWith some
          (Hidden.serializeWith (fun t => t)
            (Hidden.hide [1, 2] : Hidden (List Nat) KeyForCipherALabel)) :
          Option (Hidden (List Nat) KeyForCipherBLabel)) =
        some h2 ∧
        h2.reveal =
          (Hidden.hide [1, 2] : Hidden (List Nat) KeyForCipherALabel).reveal :=
  hidden_deserialize_any_label (fun t => t) some (fun _ => rfl)
    (Hidden.hide [1, 2])
